import Mathlib

/-!
Shallow embedding of the InterviewMate backend core
(`backend/interview_brain.py` and `backend/app.py`).

Python strings are modelled as lists of characters (`PyStr`); Python
integers as `Int`/`Nat`.  External collaborators (audio transcription,
the embedding service, the completion LLM, random fallback choice)
are modelled as explicit parameters carrying the value they would
return.  Scores that Python computes with floats are modelled with
exact rational arithmetic.
-/

abbrev PyStr := List Char

def pystr (s : String) : PyStr := s.data

/-- Whitespace recognised by `str.strip()` / `str.split()` (ASCII range;
the texts handled by the program are ASCII). -/
def isSpace (c : Char) : Bool :=
  c = ' ' || c = '\t' || c = '\n' || c = '\r' || c = '\x0b' || c = '\x0c'

/-- Left part of Python `str.strip()`. -/
def lstrip (s : PyStr) : PyStr := s.dropWhile isSpace

/-- Right part of Python `str.strip()`. -/
def rstrip (s : PyStr) : PyStr := (s.reverse.dropWhile isSpace).reverse

/-- Python `str.strip()`: remove leading and trailing whitespace. -/
def strip (s : PyStr) : PyStr := rstrip (lstrip s)

/-- Worker for `pySplitWs`; the fuel argument (always at least the length
of the string, so it never runs out) makes the recursion structural and
hence kernel-reducible. -/
def splitWsGo : Nat → PyStr → List PyStr
  | 0, _ => []
  | _ + 1, [] => []
  | fuel + 1, c :: rest =>
    if isSpace c then splitWsGo fuel rest
    else (c :: rest.takeWhile (fun x => !isSpace x)) ::
      splitWsGo fuel (rest.dropWhile (fun x => !isSpace x))

/-- Python `str.split()` with no separator: split on runs of whitespace,
ignoring leading and trailing whitespace. -/
def pySplitWs (s : PyStr) : List PyStr := splitWsGo s.length s

/-- Python `" ".join(words)`. -/
def joinSpace (ws : List PyStr) : PyStr := List.intercalate [' '] ws

theorem dropWhile_length_le {α : Type} (p : α → Bool) :
    ∀ l : List α, (l.dropWhile p).length ≤ l.length
  | [] => le_refl _
  | c :: rest => by
    rw [List.dropWhile_cons]
    split
    · exact le_trans (dropWhile_length_le p rest) (Nat.le_succ _)
    · exact le_refl _

theorem splitWsGo_of_le :
    ∀ (f : Nat) (s : PyStr), s.length ≤ f → splitWsGo f s = splitWsGo s.length s := by
  intro f
  induction f using Nat.strong_induction_on with
  | _ f ih =>
  intro s hs
  match f, s with
  | 0, s =>
    have : s = [] := List.length_eq_zero.mp (Nat.le_zero.mp hs)
    subst this; rfl
  | f + 1, [] => rfl
  | f + 1, c :: rest =>
    have hr : rest.length ≤ f := Nat.le_of_succ_le_succ hs
    have hd : (rest.dropWhile (fun x => !isSpace x)).length ≤ rest.length :=
      dropWhile_length_le _ _
    simp only [splitWsGo, List.length_cons]
    rw [ih f (Nat.lt_succ_self f) rest hr,
      ih f (Nat.lt_succ_self f) _ (le_trans hd hr),
      ih rest.length (Nat.lt_succ_of_le hr) _ hd]

theorem pySplitWs_nil : pySplitWs [] = [] := rfl

theorem pySplitWs_cons (c : Char) (rest : PyStr) :
    pySplitWs (c :: rest) =
      if isSpace c then pySplitWs rest
      else (c :: rest.takeWhile (fun x => !isSpace x)) ::
        pySplitWs (rest.dropWhile (fun x => !isSpace x)) := by
  show splitWsGo (rest.length + 1) (c :: rest) = _
  simp only [splitWsGo, pySplitWs]
  rw [splitWsGo_of_le rest.length _ (dropWhile_length_le _ _)]

/-- Python list slicing `w[i:j]` with possibly negative indices. -/
def pyIdx (len : Nat) (i : Int) : Nat :=
  if i < 0 then (max 0 ((len : Int) + i)).toNat else min len i.toNat

/-- Python `w[i:j]`. -/
def pySlice {α : Type} (w : List α) (i j : Int) : List α :=
  (w.take (pyIdx w.length j)).drop (pyIdx w.length i)

/-- The `while i < len(words)` loop of `_chunk_text`
(`interview_brain.py`, lines 64-68).  Python's loop has no fuel; the
fuel argument makes nontermination observable: the loop body runs as in
the source and `none` is returned exactly when the fuel is exhausted
with the loop still running.  `step` is `chunk_size_words - overlap_words`. -/
def chunkLoop (words : List PyStr) (csw : Nat) (step : Int) :
    Nat → Int → List PyStr → Option (List PyStr)
  | 0, i, acc => if i < (words.length : Int) then none else some acc
  | fuel + 1, i, acc =>
    if i < (words.length : Int) then
      chunkLoop words csw step fuel (i + step)
        (acc ++ [joinSpace (pySlice words i (i + (csw : Int)))])
    else some acc

/-- Embedding of `_chunk_text(text, chunk_size_words, overlap_words)` from
`interview_brain.py` lines 53-70.  `none` means the Python function does
not terminate (the fuel `words.length + 1` is ample for every
terminating run, see `chunkLoop_terminates`). -/
def _chunk_text (text : PyStr) (chunk_size_words overlap_words : Nat) :
    Option (List PyStr) :=
  if text = [] then some []
  else
    let words := pySplitWs (strip text)
    if words.length ≤ chunk_size_words then some [joinSpace words]
    else
      match chunkLoop words chunk_size_words
          ((chunk_size_words : Int) - (overlap_words : Int))
          (words.length + 1) 0 [] with
      | none => none
      | some chunks =>
        some ((chunks.filter (fun c => 10 < (pySplitWs c).length)).map strip)

/-- With a positive window advance the loop always terminates within the
fuel `_chunk_text` supplies. -/
theorem chunkLoop_terminates (words : List PyStr) (csw : Nat) (step : Int)
    (hstep : 1 ≤ step) :
    ∀ (fuel : Nat) (i : Int) (acc : List PyStr),
      (words.length : Int) ≤ i + fuel → (chunkLoop words csw step fuel i acc).isSome := by
  intro fuel
  induction fuel with
  | zero =>
    intro i acc h
    simp only [chunkLoop]
    rw [if_neg (by omega)]
    rfl
  | succ fuel ih =>
    intro i acc h
    simp only [chunkLoop]
    split
    · exact ih _ _ (by omega)
    · rfl

/-- With a non-positive window advance and a nonempty word list the loop
never exits, whatever the fuel: the infinite loop of the Python source. -/
theorem chunkLoop_diverges (words : List PyStr) (csw : Nat) (step : Int)
    (hstep : step ≤ 0) (hw : words ≠ []) :
    ∀ (fuel : Nat) (i : Int) (acc : List PyStr),
      i ≤ 0 → chunkLoop words csw step fuel i acc = none := by
  have hlen : 0 < (words.length : Int) := by
    have := List.length_pos.mpr hw
    exact_mod_cast this
  intro fuel
  induction fuel with
  | zero =>
    intro i acc hi
    simp only [chunkLoop]
    rw [if_pos (by omega)]
  | succ fuel ih =>
    intro i acc hi
    simp only [chunkLoop]
    rw [if_pos (by omega)]
    exact ih _ _ (by omega)

theorem takeWhile_concat_of_neg {α : Type} (p : α → Bool) (c : α) (hc : p c = false) :
    ∀ l : List α, (l ++ [c]).takeWhile p = l.takeWhile p
  | [] => by simp [List.takeWhile_cons, hc]
  | a :: rest => by
    simp only [List.cons_append, List.takeWhile_cons]
    split
    · rw [takeWhile_concat_of_neg p c hc rest]
    · rfl

theorem dropWhile_concat_of_neg {α : Type} [DecidableEq α] (p : α → Bool) (c : α)
    (hc : p c = false) :
    ∀ l : List α,
      (l ++ [c]).dropWhile p =
        if l.dropWhile p = [] then [c] else l.dropWhile p ++ [c]
  | [] => by simp [List.dropWhile_cons, hc]
  | a :: rest => by
    by_cases hpa : p a = true
    · simp only [List.cons_append, List.dropWhile_cons, hpa, if_true]
      exact dropWhile_concat_of_neg p c hc rest
    · have hpa' : p a = false := by simpa using hpa
      simp [List.dropWhile_cons, hpa']

theorem pySplitWs_concat_space (c : Char) (hc : isSpace c = true) :
    ∀ s : PyStr, pySplitWs (s ++ [c]) = pySplitWs s
  | [] => by rw [List.nil_append, pySplitWs_cons, if_pos hc, pySplitWs_nil]
  | a :: rest => by
    rw [List.cons_append, pySplitWs_cons, pySplitWs_cons]
    by_cases ha : isSpace a = true
    · rw [if_pos ha, if_pos ha, pySplitWs_concat_space c hc rest]
    · have ha' : isSpace a = false := by simpa using ha
      rw [if_neg (by simp [ha']), if_neg (by simp [ha'])]
      have hq : (fun x => !isSpace x) c = false := by simp [hc]
      rw [takeWhile_concat_of_neg _ c hq rest, dropWhile_concat_of_neg _ c hq rest]
      by_cases hr : rest.dropWhile (fun x => !isSpace x) = []
      · rw [if_pos hr, hr, pySplitWs_nil, pySplitWs_cons, if_pos hc, pySplitWs_nil]
      · rw [if_neg hr]
        congr 1
        exact pySplitWs_concat_space c hc (rest.dropWhile (fun x => !isSpace x))
termination_by s => s.length
decreasing_by
  · simp only [List.length_cons]
    omega
  · have := dropWhile_length_le (fun x => !isSpace x) rest
    simp only [List.length_cons]
    omega

theorem pySplitWs_rstrip (s : PyStr) : pySplitWs (rstrip s) = pySplitWs s := by
  induction s using List.reverseRecOn with
  | nil => rfl
  | append_singleton t c ih =>
    unfold rstrip
    rw [List.reverse_append, List.reverse_singleton, List.singleton_append,
      List.dropWhile_cons]
    by_cases hc : isSpace c = true
    · rw [if_pos hc]
      show pySplitWs (rstrip t) = _
      rw [ih, pySplitWs_concat_space c hc t]
    · rw [if_neg (by simp_all)]
      rw [List.reverse_cons, List.reverse_reverse]

theorem pySplitWs_lstrip : ∀ s : PyStr, pySplitWs (lstrip s) = pySplitWs s
  | [] => rfl
  | c :: rest => by
    rw [pySplitWs_cons]
    unfold lstrip
    rw [List.dropWhile_cons]
    by_cases hc : isSpace c = true
    · rw [if_pos hc, if_pos hc]
      exact pySplitWs_lstrip rest
    · rw [if_neg (by simp_all), if_neg (by simp_all), pySplitWs_cons,
        if_neg (by simp_all)]

theorem pySplitWs_strip (s : PyStr) : pySplitWs (strip s) = pySplitWs s := by
  unfold strip
  rw [pySplitWs_rstrip, pySplitWs_lstrip]

/-- Whenever the overlap is smaller than the chunk size, `_chunk_text`
terminates (its fuel is never exhausted). -/
theorem _chunk_text_total (text : PyStr) (csw osw : Nat) (h : osw < csw) :
    (_chunk_text text csw osw).isSome := by
  unfold _chunk_text
  split
  · rfl
  · simp only
    split
    · rfl
    · have hs : (1 : Int) ≤ (csw : Int) - (osw : Int) := by omega
      have hterm := chunkLoop_terminates (pySplitWs (strip text)) csw _ hs
        ((pySplitWs (strip text)).length + 1) 0 [] (by push_cast; omega)
      split
      · next heq => rw [heq] at hterm; simp at hterm
      · rfl

/-- C2: with `chunk_size_words = overlap_words = 1` and the two-word text
`"a b"`, the window never advances; the chunker does not reject the
configuration — its loop runs forever (`none` for every fuel), and
`_chunk_text` diverges instead of returning a value.  (Conversely,
`_chunk_text_total` shows the loop always terminates when
`overlap_words < chunk_size_words`.) -/
theorem c2_chunker_loops_instead_of_rejecting :
    (∀ (fuel : Nat) (acc : List PyStr),
        chunkLoop (pySplitWs (strip (pystr "a b"))) 1 ((1 : Int) - 1) fuel 0 acc = none) ∧
      _chunk_text (pystr "a b") 1 1 = none ∧
      (_chunk_text (pystr "a b") 2 1).isSome = true := by
  refine ⟨fun fuel acc => ?_, by decide, by decide⟩
  exact chunkLoop_diverges _ _ _ (by norm_num) (by decide) fuel 0 acc (le_refl 0)

/-- C7 counterexample: for the three-word text `"a b c"` (total word count
below the 150-word target size) the chunker returns that text as a single
chunk of only 3 words, so the returned sequence contains a chunk with
fewer than 11 words, contradicting the claim. -/
theorem c7_counterexample_short_single_chunk :
    ∃ chunks, _chunk_text (pystr "a b c") 150 30 = some chunks ∧
      ∃ c ∈ chunks, (pySplitWs c).length ≤ 10 :=
  ⟨[pystr "a b c"], by decide, pystr "a b c", by decide, by decide⟩

/-- C7 (amended): every chunk produced along the sliding-window path —
that is, whenever the text's word count exceeds the target chunk size —
has more than 10 words; the single-chunk shortcut path is exempt from
the minimum-size filter. -/
theorem c7_loop_chunks_exceed_ten_words (text : PyStr) (csw osw : Nat)
    (chunks : List PyStr) (c : PyStr)
    (hlong : csw < (pySplitWs (strip text)).length)
    (hres : _chunk_text text csw osw = some chunks)
    (hc : c ∈ chunks) : 10 < (pySplitWs c).length := by
  unfold _chunk_text at hres
  have htext : text ≠ [] := by
    intro h
    subst h
    simp [strip, lstrip, rstrip, pySplitWs_nil] at hlong
  rw [if_neg htext] at hres
  simp only at hres
  rw [if_neg (by omega)] at hres
  rcases hm : chunkLoop (pySplitWs (strip text)) csw
      ((csw : Int) - (osw : Int)) ((pySplitWs (strip text)).length + 1) 0 [] with _ | raw
  · rw [hm] at hres
    cases hres
  · rw [hm] at hres
    have hchunks : chunks = (raw.filter (fun c => 10 < (pySplitWs c).length)).map strip :=
      (Option.some_injective _ hres).symm
    subst hchunks
    obtain ⟨c0, hc0, rfl⟩ := List.mem_map.mp hc
    have hfilter := (List.mem_filter.mp hc0).2
    rw [pySplitWs_strip]
    exact of_decide_eq_true hfilter

/-- Witness for `c7_loop_chunks_exceed_ten_words` at a 13-word text with
chunk size 12 and overlap 2. -/
theorem c7_loop_chunks_exceed_ten_words_witness :
    10 < (pySplitWs (pystr "aa b c d e f g h i j k l")).length :=
  c7_loop_chunks_exceed_ten_words (pystr "aa b c d e f g h i j k l m") 12 2
    [pystr "aa b c d e f g h i j k l"] (pystr "aa b c d e f g h i j k l")
    (by decide) (by decide) (by decide)

/-- C8 counterexample: the whitespace-only (blank, non-empty) input `" "`
does not give the empty sequence — the chunker returns one chunk holding
the empty string. -/
theorem c8_counterexample_blank_input :
    _chunk_text (pystr " ") 150 30 = some [([] : PyStr)] ∧
      _chunk_text (pystr " ") 150 30 ≠ some [] := by decide

/-- C8 (amended): the empty input gives the empty sequence; a non-empty
input whose word count is at most the target size gives exactly one chunk
holding the input's words joined by single spaces (for a blank input this
single chunk is the empty string; the chunk is not in general equal to
the input text, whose whitespace is normalised). -/
theorem c8_empty_and_single_chunk_cases (text : PyStr) (csw osw : Nat) :
    (text = [] → _chunk_text text csw osw = some []) ∧
      (text ≠ [] → (pySplitWs text).length ≤ csw →
        _chunk_text text csw osw = some [joinSpace (pySplitWs text)]) := by
  constructor
  · intro h
    subst h
    rfl
  · intro ht hlen
    unfold _chunk_text
    rw [if_neg ht]
    simp only [pySplitWs_strip]
    rw [if_pos hlen]

/-- Witness for `c8_empty_and_single_chunk_cases`: the four-character text
`"a  b"` (two words, double space) yields the single normalised chunk
`"a b"`. -/
theorem c8_empty_and_single_chunk_cases_witness :
    _chunk_text (pystr "a  b") 150 30 = some [pystr "a b"] := by
  rw [(c8_empty_and_single_chunk_cases (pystr "a  b") 150 30).2 (by decide) (by decide)]
  decide

/-- Characters `str.splitlines()` treats as line boundaries. -/
def isLineBreak (c : Char) : Bool :=
  c = '\n' || c = '\r' || c = '\x0b' || c = '\x0c' ||
    c = '\x1c' || c = '\x1d' || c = '\x1e' || c = '\x85' ||
    c = '\u2028' || c = '\u2029'

/-- Split at every character satisfying `p`, keeping empty segments. -/
def splitOnPred (p : Char → Bool) : PyStr → List PyStr
  | [] => [[]]
  | c :: rest =>
    if p c then [] :: splitOnPred p rest
    else
      match splitOnPred p rest with
      | [] => [[c]]
      | t :: ts => (c :: t) :: ts

/-- Python `str.splitlines()`, up to empty segments: `splitlines` merges
`"\r\n"` into a single boundary and drops a trailing empty segment,
while this splits at each boundary character; the difference is only
extra empty segments, and the one caller filters blank lines away. -/
def pySplitLines (s : PyStr) : List PyStr := splitOnPred isLineBreak s

/-- The stripped non-empty lines used by the parser
(`interview_brain.py` line 299). -/
def parsedLines (text : PyStr) : List PyStr :=
  ((pySplitLines (strip text)).map strip).filter (fun l => l ≠ [])

/-- The test `ln.endswith("?") or "?" in ln` from line 310. -/
def hasQuestionMark (ln : PyStr) : Bool :=
  (ln.getLast? == some '?') || ln.contains '?'

/-- Embedding of `parse_llm_two_line_response(text)` from `interview_brain.py`
lines 289-316. -/
def parse_llm_two_line_response (text : PyStr) : PyStr × PyStr :=
  if text = [] then ([], [])
  else
    match parsedLines text with
    | [] => ([], [])
    | [l] => ([], l)
    | l0 :: l1 :: rest =>
      let follow := ((l1 :: rest).reverse.find? hasQuestionMark).getD l1
      (l0, follow)

theorem find?_append {α : Type} (p : α → Bool) :
    ∀ l₁ l₂ : List α, (l₁ ++ l₂).find? p = (l₁.find? p).or (l₂.find? p)
  | [], _ => rfl
  | a :: rest, l₂ => by
    by_cases hpa : p a = true
    · rw [List.cons_append, List.find?_cons_of_pos _ hpa, List.find?_cons_of_pos _ hpa]
      rfl
    · rw [List.cons_append, List.find?_cons_of_neg _ hpa, List.find?_cons_of_neg _ hpa]
      exact find?_append p rest l₂

theorem getLast?_cons_some {α : Type} (b : α) :
    ∀ t : List α, ∃ y, (b :: t).getLast? = some y
  | [] => ⟨b, rfl⟩
  | c :: t => by
    rw [List.getLast?_cons_cons]
    exact getLast?_cons_some c t

theorem getLast?_or_some {α : Type} (x : α) :
    ∀ l : List α, (l.getLast?).or (some x) = (x :: l).getLast?
  | [] => rfl
  | b :: t => by
    obtain ⟨y, hy⟩ := getLast?_cons_some b t
    rw [hy, List.getLast?_cons_cons, hy]
    rfl

/-- Scanning a list from the end for the first match is the same as
taking the last element of the filtered list. -/
theorem reverse_find?_eq_filter_getLast? {α : Type} (p : α → Bool) :
    ∀ l : List α, l.reverse.find? p = (l.filter p).getLast?
  | [] => rfl
  | a :: rest => by
    rw [List.reverse_cons, find?_append, List.filter_cons,
      reverse_find?_eq_filter_getLast? p rest]
    by_cases hpa : p a = true
    · rw [if_pos hpa, List.find?_cons_of_pos _ hpa]
      exact getLast?_or_some a _
    · rw [if_neg hpa, List.find?_cons_of_neg _ hpa]
      exact Option.or_none

/-- C1: `parse_llm_two_line_response` is total and, on the non-empty
trimmed lines of its input, returns `("", "")` for zero lines, `("",
line)` for one line, and for two or more lines the pair of the first
line and the last line after the first containing a question mark
(expressed as the last element of the filtered tail), falling back to
the second line when no tail line contains one. -/
theorem c1_parse_two_line_protocol (text : PyStr) :
    (parsedLines text = [] → parse_llm_two_line_response text = ([], [])) ∧
      (∀ l, parsedLines text = [l] → parse_llm_two_line_response text = ([], l)) ∧
      (∀ l0 l1 rest, parsedLines text = l0 :: l1 :: rest →
        parse_llm_two_line_response text =
          (l0, (((l1 :: rest).filter hasQuestionMark).getLast?).getD l1)) := by
  by_cases htext : text = []
  · subst htext
    have h0 : parsedLines [] = [] := by decide
    refine ⟨fun _ => rfl, fun l hl => ?_, fun l0 l1 rest hl => ?_⟩
    · rw [h0] at hl
      cases hl
    · rw [h0] at hl
      cases hl
  · unfold parse_llm_two_line_response
    rw [if_neg htext]
    refine ⟨fun h => by rw [h], fun l hl => by rw [hl], fun l0 l1 rest hl => ?_⟩
    rw [hl]
    simp only
    rw [reverse_find?_eq_filter_getLast?]

/-- Witness for `c1_parse_two_line_protocol`: a three-line response whose
middle line alone carries the question mark parses to (first line, middle
line). -/
theorem c1_parse_two_line_protocol_witness :
    parse_llm_two_line_response (pystr "Good point.\nBar baz?\nDone.") =
      (pystr "Good point.", pystr "Bar baz?") := by
  rw [(c1_parse_two_line_protocol (pystr "Good point.\nBar baz?\nDone.")).2.2
    (pystr "Good point.") (pystr "Bar baz?") [pystr "Done."] (by decide)]
  decide

/-- Python regex `\w` word characters (ASCII range). -/
def isWordChar (c : Char) : Bool := c.isAlpha || c.isDigit || c = '_'

/-- The literal alternatives of `_HESITATION_PATTERNS`
(`interview_brain.py` lines 159-163), lower-cased because the regex is
compiled with `re.IGNORECASE`; `\bumm?\b` contributes `um` and `umm`,
and the final numeric alternative `\b\d+\.\.\.\b` is handled by
`digitsDotsAt`. -/
def hesWordPatterns : List PyStr :=
  [pystr "um", pystr "uh", pystr "umm", pystr "well", pystr "maybe",
    pystr "i think", pystr "not sure", pystr "kind of", pystr "sort of",
    pystr "i guess", pystr "perhaps"]

/-- Case-insensitive match of one word-boundary-delimited literal
alternative at the head of `s`: the characters match after lower-casing,
and the pattern — whose last character is a word character — is followed
by a non-word character or the end of the string (its trailing `\b`).
The leading `\b` is checked by the caller. -/
def litMatchAt (s : PyStr) (pat : PyStr) : Bool :=
  pat.isPrefixOf (s.map Char.toLower) &&
    (match s.drop pat.length with
     | [] => true
     | c :: _ => !isWordChar c)

/-- Match of `\d+\.\.\.\b` at the head of `s` (the leading `\b` is checked
by the caller): one or more digits, three dots, then — a dot not being a
word character — the trailing `\b` demands a following word character. -/
def digitsDotsAt (s : PyStr) : Bool :=
  let ds := s.takeWhile Char.isDigit
  !ds.isEmpty &&
    (match s.drop ds.length with
     | '.' :: '.' :: '.' :: c :: _ => isWordChar c
     | _ => false)

def hesMatchAt (s : PyStr) : Bool :=
  hesWordPatterns.any (litMatchAt s) || digitsDotsAt s

/-- Whether the position after character `prev` (`none` at the start of
the string) is a word boundary for a pattern starting with a word
character. -/
def prevNonWord : Option Char → Bool
  | none => true
  | some c => !isWordChar c

/-- Embedding of `_hes_re.search(text)` as a Boolean: try a match at every position. -/
def hesSearch : Option Char → PyStr → Bool
  | prev, [] => prevNonWord prev && hesMatchAt []
  | prev, c :: rest =>
    (prevNonWord prev && hesMatchAt (c :: rest)) || hesSearch (some c) rest

/-- Embedding of `detect_hesitation(text)` from `interview_brain.py` lines 166-173. -/
def detect_hesitation (text : PyStr) : Bool :=
  if text = [] || strip text = [] then true
  else hesSearch none text

/-- Embedding of `compute_confidence_score(user_text, session_id, jd_chunks)` from
`interview_brain.py` lines 195-231.  The semantic-similarity value `sim`
— computed by `_cosine_sim` over embeddings fetched from the external
embedding service, and `0.0` when embedding the answer fails — is
abstracted as a parameter; `session_id` and `jd_chunks` influence the
result only through `sim`.  Float arithmetic is modelled exactly. -/
def compute_confidence_score (user_text : PyStr) (sim : ℚ) : ℚ :=
  if user_text = [] then 0
  else
    let sim_norm := max 0 (min 1 ((sim + 1) / 2))
    let conf := sim_norm
    let conf := if detect_hesitation user_text then conf * 0.6 else conf
    let conf := if (pySplitWs user_text).length < 8 then conf * 0.7 else conf
    max 0 (min 1 conf)

theorem clamp01_nonneg (x : ℚ) : 0 ≤ max 0 (min 1 x) := le_max_left _ _

theorem clamp01_le_one (x : ℚ) : max 0 (min 1 x) ≤ 1 :=
  max_le (by norm_num) (min_le_left _ _)

theorem clamp01_of_mem (x : ℚ) (h0 : 0 ≤ x) (h1 : x ≤ 1) :
    max 0 (min 1 x) = x := by
  rw [min_eq_right h1, max_eq_right h0]

/-- C3: the confidence score is always in [0, 1]; it is exactly 0 for the
empty answer; and for a non-empty answer it is the base score
`clamp((sim+1)/2)` multiplied by 0.6 when hesitation is detected and by
0.7 when the answer has fewer than 8 words, the two penalties
compounding. -/
theorem c3_confidence_bounds_and_penalties (user_text : PyStr) (sim : ℚ) :
    (0 ≤ compute_confidence_score user_text sim ∧
        compute_confidence_score user_text sim ≤ 1) ∧
      compute_confidence_score [] sim = 0 ∧
      (user_text ≠ [] →
        compute_confidence_score user_text sim =
          (if detect_hesitation user_text then (0.6 : ℚ) else 1) *
            (if (pySplitWs user_text).length < 8 then (0.7 : ℚ) else 1) *
            max 0 (min 1 ((sim + 1) / 2))) := by
  have hb0 : 0 ≤ max 0 (min 1 ((sim + 1) / 2)) := clamp01_nonneg _
  have hb1 : max 0 (min 1 ((sim + 1) / 2)) ≤ 1 := clamp01_le_one _
  refine ⟨?_, rfl, ?_⟩
  · simp only [compute_confidence_score]
    split
    · norm_num
    · exact ⟨clamp01_nonneg _, clamp01_le_one _⟩
  · intro ht
    simp only [compute_confidence_score, if_neg ht]
    by_cases hhes : detect_hesitation user_text = true
    · by_cases hshort : (pySplitWs user_text).length < 8
      · rw [if_pos hhes, if_pos hshort, if_pos hhes, if_pos hshort,
          clamp01_of_mem _ (by positivity) (by nlinarith)]
        ring
      · rw [if_pos hhes, if_neg hshort, if_pos hhes, if_neg hshort,
          clamp01_of_mem _ (by positivity) (by nlinarith)]
        ring
    · by_cases hshort : (pySplitWs user_text).length < 8
      · rw [if_neg hhes, if_pos hshort, if_neg hhes, if_pos hshort,
          clamp01_of_mem _ (by positivity) (by nlinarith)]
        ring
      · rw [if_neg hhes, if_neg hshort, if_neg hhes, if_neg hshort,
          clamp01_of_mem _ hb0 hb1]
        ring

/-- Witness for `c3_confidence_bounds_and_penalties`: the one-word
hesitant answer `"um"` with similarity 1 scores `1 × 0.6 × 0.7 = 0.42`. -/
theorem c3_confidence_bounds_and_penalties_witness :
    compute_confidence_score (pystr "um") 1 = 21 / 50 := by
  rw [(c3_confidence_bounds_and_penalties (pystr "um") 1).2.2 (by decide),
    if_pos (by decide), if_pos (by decide)]
  norm_num

/-- Python `pat in s` substring containment. -/
def isSubstring (pat s : PyStr) : Bool :=
  s.tails.any (fun t => pat.isPrefixOf t)

/-- Digit tail of a Python `int()` literal: further digits, one
underscore allowed between two digits. -/
def intDigitsGo (acc : Nat) : PyStr → Option Nat
  | [] => some acc
  | '_' :: c :: rest =>
    if c.isDigit then intDigitsGo (acc * 10 + (c.toNat - 48)) rest else none
  | c :: rest =>
    if c.isDigit then intDigitsGo (acc * 10 + (c.toNat - 48)) rest else none

/-- First digit (required) of a Python `int()` literal. -/
def intDigitsFirst : PyStr → Option Nat
  | [] => none
  | c :: rest => if c.isDigit then intDigitsGo (c.toNat - 48) rest else none

/-- Python `int(string)`: optional surrounding whitespace, an optional
sign, then one or more digits (single underscores permitted between
digits); `none` when `int()` raises `ValueError`. -/
def pyIntParse (s : PyStr) : Option Int :=
  match strip s with
  | '+' :: rest => (intDigitsFirst rest).map (fun n => (n : Int))
  | '-' :: rest => (intDigitsFirst rest).map (fun n => -(n : Int))
  | rest => intDigitsFirst rest

/-- Python `mode.split("|")`. -/
def pySplitPipe (mode : PyStr) : List PyStr :=
  splitOnPred (fun c => c = '|') mode

/-- Embedding of `compute_max_questions(mode)` from `app.py` lines 93-113.  The result
is an `Int`: the `int(parts[1])` fallback may produce any integer. -/
def compute_max_questions (mode : PyStr) : Int :=
  if mode = [] then 12
  else if isSubstring (pystr "Quick") mode then 6
  else if isSubstring (pystr "Detailed") mode then 12
  else if isSubstring (pystr "Long") mode then 20
  else
    match pySplitPipe mode with
    | _ :: p1 :: _ =>
      match pyIntParse p1 with
      | some n => n
      | none => 12
    | _ => 12

/-- C9: the turn budget is a fixed keyword lookup — any mode containing
`"Quick"` gives 6, otherwise containing `"Detailed"` gives 12, otherwise
containing `"Long"` gives 20; with no tier keyword, a mode splitting on
`"|"` into two or more parts whose second part parses as an integer `n`
gives `n`; every other mode (the empty mode included) gives the default
12. -/
theorem c9_max_questions_lookup (mode : PyStr) :
    (isSubstring (pystr "Quick") mode = true → compute_max_questions mode = 6) ∧
      (isSubstring (pystr "Quick") mode = false →
        isSubstring (pystr "Detailed") mode = true →
        compute_max_questions mode = 12) ∧
      (isSubstring (pystr "Quick") mode = false →
        isSubstring (pystr "Detailed") mode = false →
        isSubstring (pystr "Long") mode = true →
        compute_max_questions mode = 20) ∧
      (∀ (n : Int) (p0 p1 : PyStr) (ps : List PyStr),
        isSubstring (pystr "Quick") mode = false →
        isSubstring (pystr "Detailed") mode = false →
        isSubstring (pystr "Long") mode = false →
        pySplitPipe mode = p0 :: p1 :: ps → pyIntParse p1 = some n →
        compute_max_questions mode = n) ∧
      (isSubstring (pystr "Quick") mode = false →
        isSubstring (pystr "Detailed") mode = false →
        isSubstring (pystr "Long") mode = false →
        (∀ p0 p1 ps, pySplitPipe mode = p0 :: p1 :: ps → pyIntParse p1 = none) →
        compute_max_questions mode = 12) := by
  by_cases hmode : mode = []
  · subst hmode
    refine ⟨fun h => absurd h (by decide), fun _ h => absurd h (by decide),
      fun _ _ h => absurd h (by decide),
      fun n p0 p1 ps _ _ _ hsplit _ => ?_, fun _ _ _ _ => rfl⟩
    have hpipe : pySplitPipe ([] : PyStr) = [[]] := rfl
    rw [hpipe] at hsplit
    simp at hsplit
  · unfold compute_max_questions
    rw [if_neg hmode]
    refine ⟨fun h => by rw [if_pos h], fun hq hd => by rw [if_neg (by simp [hq]), if_pos hd],
      fun hq hd hl => by rw [if_neg (by simp [hq]), if_neg (by simp [hd]), if_pos hl],
      fun n p0 p1 ps hq hd hl hsplit hparse => ?_, fun hq hd hl hnone => ?_⟩
    · rw [if_neg (by simp [hq]), if_neg (by simp [hd]), if_neg (by simp [hl]), hsplit]
      show (match pyIntParse p1 with | some k => k | none => (12 : Int)) = n
      rw [hparse]
    · rw [if_neg (by simp [hq]), if_neg (by simp [hd]), if_neg (by simp [hl])]
      rcases hsplit : pySplitPipe mode with _ | ⟨p0, _ | ⟨p1, ps⟩⟩
      · rfl
      · rfl
      · show (match pyIntParse p1 with | some k => k | none => (12 : Int)) = (12 : Int)
        rw [hnone p0 p1 ps hsplit]

/-- Witness for `c9_max_questions_lookup`: `"Quick|10"` gives the named
tier's 6, `"Custom|7"` gives the parsed 7. -/
theorem c9_max_questions_lookup_witness :
    compute_max_questions (pystr "Quick|10") = 6 ∧
      compute_max_questions (pystr "Custom|7") = 7 :=
  ⟨(c9_max_questions_lookup (pystr "Quick|10")).1 (by decide),
    (c9_max_questions_lookup (pystr "Custom|7")).2.2.2.1 7 (pystr "Custom")
      (pystr "7") [] (by decide) (by decide) (by decide) (by decide) (by decide)⟩

/-- One history entry: `{"speaker": ..., "text": ...}`. -/
structure Turn where
  speaker : PyStr
  text : PyStr
deriving DecidableEq

/-- The per-interview session dictionary built by `start_session`
(`app.py` lines 218-231).  `status` holds the literal Python string
(`"in_progress"` or `"finished"`).  `current_question` is doubly
optional: the outer `Option` is key presence (the key is missing when
`start_session` raised after storing the dictionary), the inner
`Option` distinguishes Python `None` from a string (the code stores
`None` when the LLM returns an empty reply). -/
structure Session where
  session_id : PyStr
  role : PyStr
  level : PyStr
  focus : PyStr
  mode : PyStr
  jd_text : PyStr
  history : List Turn
  questions_asked : Nat
  status : PyStr
  current_question : Option (Option PyStr)
  feedback : Option PyStr
deriving DecidableEq

def inProgressS : PyStr := pystr "in_progress"

def finishedS : PyStr := pystr "finished"

def interviewerS : PyStr := pystr "Interviewer"

def userS : PyStr := pystr "User"

/-- Embedding of `start_session` (`app.py` lines 207-276) when the first completion
call succeeds and returns `first_question`; building the RAG index
mutates only the external retrieval store, not the session. -/
def start_session (session_id role level focus mode jd_text first_question : PyStr) :
    Session :=
  { session_id, role, level, focus, mode, jd_text,
    history := [⟨interviewerS, first_question⟩],
    questions_asked := 1,
    status := inProgressS,
    current_question := some (some first_question),
    feedback := none }

/-- The session left behind when `start_session` fails to obtain the
first question: line 231 stores the session before the completion call
and lines 255-259 then raise, so this state stays in `SESSIONS`. -/
def start_session_failed (session_id role level focus mode jd_text : PyStr) : Session :=
  { session_id, role, level, focus, mode, jd_text,
    history := [],
    questions_asked := 0,
    status := inProgressS,
    current_question := none,
    feedback := none }

/-- Embedding of `generate_feedback_for_session` (`app.py` lines 118-176): the prompt
built from the transcript is consumed by the external completion
service, whose reply (`none` = the call raised) is the parameter; on
failure the fixed fallback string is returned. -/
def generate_feedback_for_session (_s : Session) (fbReply : Option PyStr) : PyStr :=
  match fbReply with
  | some fb => fb
  | none => pystr "Feedback generation failed. Try again later."

/-- Python `session.get("current_question", "")`: the default applies only when
the key is absent; a stored `None` comes back as `None`. -/
def Session.currentQuestionOrEmpty (s : Session) : Option PyStr :=
  match s.current_question with
  | none => some []
  | some v => v

/-- The JSON payloads `submit_response` can return, one constructor per
`return` site (`app.py` lines 296-300, 308-319, 405-417, 430-443). -/
inductive SubmitResp where
  | alreadyFinished (feedback_ready : Bool) (feedback : Option PyStr)
  | askRepeat (user_text evaluation followup_question : PyStr)
      (new_question : Option PyStr) (full_response : PyStr)
      (current_q_count : Nat) (feedback_ready : Bool) (confidence : ℚ)
      (offtopic hesitation_flag : Bool)
  | finishedNow (user_text evaluation : PyStr) (followup_question : Option PyStr)
      (new_question : Option PyStr) (full_response : PyStr)
      (current_q_count : Nat) (feedback_ready : Bool) (feedback : PyStr)
      (confidence : ℚ) (offtopic hesitation_flag : Bool)
  | inProgress (user_text evaluation : PyStr) (followup_question : Option PyStr)
      (new_question : Option PyStr) (full_response : PyStr)
      (current_q_count : Nat) (feedback_ready : Bool) (confidence : ℚ)
      (offtopic hesitation_flag : Bool)

/-- The fixed substitute evaluation used when the completion call raises
(`app.py` line 357). -/
def modelErrorEval : PyStr := pystr "Short evaluation not available due to model error."

/-- The `full_response` value after step 5 of `submit_response`: the
completion reply, or the two-line substitute built from the fallback
question when the call raised (line 358). -/
def fullResponseOf (llm : Option PyStr) (fallback_q : PyStr) : PyStr :=
  match llm with
  | some t => t
  | none => modelErrorEval ++ '\n' :: fallback_q

/-- Values of `evaluation` and `followup_question` after step 6 of
`submit_response`: the two-line parse runs whenever `full_response` is
non-empty (which is always the case on the fallback path); an empty
`full_response` — a successful but empty completion reply — keeps the
initial values `""` and Python `None`. -/
def parsedTurn (llm : Option PyStr) (fallback_q : PyStr) : PyStr × Option PyStr :=
  let full := fullResponseOf llm fallback_q
  if full = [] then ([], none)
  else
    ((parse_llm_two_line_response full).1, some (parse_llm_two_line_response full).2)

/-- Worker for `pyReplace`; the fuel (at least the string length) makes
the recursion structural. -/
def replaceGo : Nat → PyStr → PyStr → PyStr → PyStr
  | 0, s, _, _ => s
  | _ + 1, [], _, _ => []
  | fuel + 1, c :: rest, pat, rep =>
    if !pat.isEmpty && pat.isPrefixOf (c :: rest) then
      rep ++ replaceGo fuel ((c :: rest).drop pat.length) pat rep
    else c :: replaceGo fuel rest pat rep

/-- Python `s.replace(pat, rep)` (for the non-empty patterns the backend
uses): replace every non-overlapping occurrence, left to right. -/
def pyReplace (s pat rep : PyStr) : PyStr := replaceGo s.length s pat rep

def offtopicToken : PyStr := pystr "[OFFTOPIC]"

/-- Embedding of `submit_response` (`app.py` lines 281-443).  The parameters model the
external collaborators: `transcribed` is the transcription service's
text for the uploaded audio, `llm` the completion reply (`none` = the
call raised), `fallback_q` the randomly chosen fallback follow-up,
`sim` the semantic similarity feeding the confidence score, `fbReply`
the completion reply used if final feedback is generated.  Returns the
updated session and the JSON payload. -/
def submit_response (s : Session) (transcribed : PyStr) (llm : Option PyStr)
    (fallback_q : PyStr) (sim : ℚ) (fbReply : Option PyStr) :
    Session × SubmitResp :=
  if s.status = finishedS then
    (s, .alreadyFinished true s.feedback)
  else
    let user_text := strip transcribed
    if user_text = [] then
      (s, .askRepeat [] []
        (pystr "I didn\'t catch that — could you please repeat your answer?")
        s.currentQuestionOrEmpty [] s.questions_asked false 0 false true)
    else
      let s1 := { s with history := s.history ++ [Turn.mk userS user_text] }
      let hesitation_flag := detect_hesitation user_text
      let full_response := fullResponseOf llm fallback_q
      let evaluation0 := (parsedTurn llm fallback_q).1
      let followup_question := (parsedTurn llm fallback_q).2
      let new_question := followup_question
      let confidence := compute_confidence_score user_text sim
      let offtopic := offtopicToken.isPrefixOf (strip evaluation0)
      let evaluation :=
        if offtopic then strip (pyReplace evaluation0 offtopicToken []) else evaluation0
      let s2 :=
        if !offtopic then
          { s1 with history := s1.history ++ [Turn.mk interviewerS full_response],
                    questions_asked := s1.questions_asked + 1,
                    current_question := some new_question }
        else
          { s1 with history := s1.history ++ [Turn.mk interviewerS full_response],
                    current_question := some new_question }
      if compute_max_questions s2.mode ≤ (s2.questions_asked : Int) then
        let feedback_text := generate_feedback_for_session s2 fbReply
        let s3 := { s2 with status := finishedS, feedback := some feedback_text }
        (s3, .finishedNow user_text evaluation followup_question none full_response
          s3.questions_asked true feedback_text confidence offtopic hesitation_flag)
      else
        (s2, .inProgress user_text evaluation followup_question new_question
          full_response s2.questions_asked false confidence offtopic hesitation_flag)

/-- Truthiness of `session.get("feedback")`. -/
def truthyFeedback : Option PyStr → Bool
  | none => false
  | some fb => !fb.isEmpty

/-- The JSON payloads `end_interview` can return (`app.py` lines
461-472); the already-finished reply carries no feedback field. -/
inductive EndResp where
  | alreadyDone (status message session_id : PyStr)
  | generated (status message session_id feedback : PyStr)
deriving DecidableEq

/-- The `feedback` field of an `end_interview` reply; `none` when the
payload has no such field. -/
def EndResp.feedbackField : EndResp → Option PyStr
  | .alreadyDone _ _ _ => none
  | .generated _ _ _ fb => some fb

/-- Embedding of `end_interview` (`app.py` lines 449-472); `fbReply` is the
completion reply used for feedback generation. -/
def end_interview (s : Session) (fbReply : Option PyStr) : Session × EndResp :=
  if s.status = finishedS ∧ truthyFeedback s.feedback = true then
    (s, .alreadyDone finishedS (pystr "Feedback already generated.") s.session_id)
  else
    let s1 := { s with status := finishedS }
    let feedback_text := generate_feedback_for_session s1 fbReply
    let s2 := { s1 with feedback := some feedback_text }
    (s2, .generated finishedS (pystr "Feedback generated.") s2.session_id feedback_text)

/-- One request against a fixed session, with its external inputs. -/
inductive Op where
  | submit (transcribed : PyStr) (llm : Option PyStr) (fallback_q : PyStr)
      (sim : ℚ) (fbReply : Option PyStr)
  | finish (fbReply : Option PyStr)

def applyOp (s : Session) : Op → Session
  | .submit transcribed llm fallback_q sim fbReply =>
    (submit_response s transcribed llm fallback_q sim fbReply).1
  | .finish fbReply => (end_interview s fbReply).1

def runOps (s : Session) (ops : List Op) : Session := ops.foldl applyOp s

/-- Sessions the backend can hold: created by `start_session`
(successfully, or with the first completion call failing after the
session was stored) and transformed by any number of `submit_response`
and `end_interview` calls. -/
inductive Reachable : Session → Prop where
  | started (session_id role level focus mode jd_text first_question : PyStr) :
      Reachable (start_session session_id role level focus mode jd_text first_question)
  | startFailed (session_id role level focus mode jd_text : PyStr) :
      Reachable (start_session_failed session_id role level focus mode jd_text)
  | step (s : Session) (op : Op) : Reachable s → Reachable (applyOp s op)

/-- A `submit_response` call never decreases the counter, and can change
the status only to `finished` — which, once set, is preserved. -/
theorem submit_counter_status (s : Session) (tr : PyStr) (llm : Option PyStr)
    (fq : PyStr) (sim : ℚ) (fbR : Option PyStr) :
    s.questions_asked ≤ (submit_response s tr llm fq sim fbR).1.questions_asked ∧
      ((submit_response s tr llm fq sim fbR).1.status = s.status ∨
        (submit_response s tr llm fq sim fbR).1.status = finishedS) ∧
      (s.status = finishedS → (submit_response s tr llm fq sim fbR).1.status = finishedS) := by
  simp only [submit_response]
  split
  next hfin => exact ⟨le_refl _, Or.inl rfl, fun _ => hfin⟩
  next hfin =>
    split
    next => exact ⟨le_refl _, Or.inl rfl, fun h => absurd h hfin⟩
    next =>
      split <;> split
      all_goals
        first
        | exact ⟨Nat.le_succ _, Or.inr rfl, fun _ => rfl⟩
        | exact ⟨Nat.le_succ _, Or.inl rfl, fun h => absurd h hfin⟩
        | exact ⟨le_refl _, Or.inr rfl, fun _ => rfl⟩
        | exact ⟨le_refl _, Or.inl rfl, fun h => absurd h hfin⟩

/-- An `end_interview` call never touches the counter and always leaves
the session finished. -/
theorem end_counter_status (s : Session) (fbR : Option PyStr) :
    (end_interview s fbR).1.questions_asked = s.questions_asked ∧
      (end_interview s fbR).1.status = finishedS := by
  simp only [end_interview]
  split
  next hcond => exact ⟨rfl, hcond.1⟩
  next => exact ⟨rfl, rfl⟩

theorem applyOp_counter_status (s : Session) (op : Op) :
    s.questions_asked ≤ (applyOp s op).questions_asked ∧
      ((applyOp s op).status = s.status ∨ (applyOp s op).status = finishedS) ∧
      (s.status = finishedS → (applyOp s op).status = finishedS) := by
  cases op with
  | submit tr llm fq sim fbR => exact submit_counter_status s tr llm fq sim fbR
  | finish fbR =>
    obtain ⟨hq, hs⟩ := end_counter_status s fbR
    exact ⟨le_of_eq hq.symm, Or.inr hs, fun _ => hs⟩

theorem runOps_counter_status :
    ∀ (ops : List Op) (s : Session),
      s.questions_asked ≤ (runOps s ops).questions_asked ∧
        (s.status = finishedS → (runOps s ops).status = finishedS)
  | [], s => ⟨le_refl _, fun h => h⟩
  | op :: ops, s => by
    obtain ⟨h1, _, h3⟩ := applyOp_counter_status s op
    obtain ⟨h4, h5⟩ := runOps_counter_status ops (applyOp s op)
    exact ⟨le_trans h1 h4, fun h => h5 (h3 h)⟩

/-- A `submit_response` call either leaves the session untouched, leaves
status and feedback alone, or stores freshly generated feedback. -/
theorem submit_feedback_cases (s : Session) (tr : PyStr) (llm : Option PyStr)
    (fq : PyStr) (sim : ℚ) (fbR : Option PyStr) :
    (submit_response s tr llm fq sim fbR).1 = s ∨
      ((submit_response s tr llm fq sim fbR).1.status = s.status ∧
        (submit_response s tr llm fq sim fbR).1.feedback = s.feedback) ∨
      ∃ fb, (submit_response s tr llm fq sim fbR).1.feedback = some fb := by
  simp only [submit_response]
  split
  next => exact Or.inl rfl
  next =>
    split
    next => exact Or.inl rfl
    next =>
      split <;> split
      all_goals
        first
        | exact Or.inr (Or.inr ⟨_, rfl⟩)
        | exact Or.inr (Or.inl ⟨rfl, rfl⟩)

/-- An `end_interview` call either leaves the session untouched or stores
freshly generated feedback. -/
theorem end_feedback_cases (s : Session) (fbR : Option PyStr) :
    (end_interview s fbR).1 = s ∨
      ∃ fb, (end_interview s fbR).1.feedback = some fb := by
  simp only [end_interview]
  split
  next => exact Or.inl rfl
  next => exact Or.inr ⟨_, rfl⟩

/-- In every reachable session, a finished status comes with stored
feedback. -/
theorem reachable_finished_feedback (s : Session) (h : Reachable s) :
    s.status = finishedS → ∃ fb, s.feedback = some fb := by
  induction h with
  | started sid role level focus mode jd q =>
    intro hf
    rw [show (start_session sid role level focus mode jd q).status = inProgressS from rfl] at hf
    exact absurd hf (by decide)
  | startFailed sid role level focus mode jd =>
    intro hf
    rw [show (start_session_failed sid role level focus mode jd).status = inProgressS from rfl] at hf
    exact absurd hf (by decide)
  | step s' op hr ih =>
    intro hf
    cases op with
    | submit tr llm fq sim fbR =>
      rcases submit_feedback_cases s' tr llm fq sim fbR with heq | ⟨hst, hfb⟩ | ⟨fb, hfb⟩
      · rw [show applyOp s' (Op.submit tr llm fq sim fbR) =
            (submit_response s' tr llm fq sim fbR).1 from rfl, heq] at hf ⊢
        exact ih hf
      · rw [show applyOp s' (Op.submit tr llm fq sim fbR) =
            (submit_response s' tr llm fq sim fbR).1 from rfl] at hf ⊢
        rw [hst] at hf
        rw [hfb]
        exact ih hf
      · exact ⟨fb, hfb⟩
    | finish fbR =>
      rcases end_feedback_cases s' fbR with heq | ⟨fb, hfb⟩
      · rw [show applyOp s' (Op.finish fbR) = (end_interview s' fbR).1 from rfl, heq] at hf ⊢
        exact ih hf
      · exact ⟨fb, hfb⟩

/-- C5: across any sequence of submitted answers and explicit end calls,
the questions-asked counter never decreases, and each operation leaves
the status unchanged or sets it to finished — and once finished it stays
finished (finished is terminal). -/
theorem c5_counter_monotone_status_forward (s : Session) :
    (∀ op : Op,
        s.questions_asked ≤ (applyOp s op).questions_asked ∧
          ((applyOp s op).status = s.status ∨ (applyOp s op).status = finishedS) ∧
          (s.status = finishedS → (applyOp s op).status = finishedS)) ∧
      ∀ ops : List Op,
        s.questions_asked ≤ (runOps s ops).questions_asked ∧
          (s.status = finishedS → (runOps s ops).status = finishedS) :=
  ⟨fun op => applyOp_counter_status s op, fun ops => runOps_counter_status ops s⟩

/-- Witness for `c5_counter_monotone_status_forward` on a concrete
finished session and a one-operation trace. -/
theorem c5_counter_monotone_status_forward_witness :
    (let sF := (end_interview (start_session (pystr "sid") (pystr "r") (pystr "l")
        (pystr "f") (pystr "Quick|10") [] (pystr "Q?"))
        (some (pystr "Overall strong."))).1
     sF.questions_asked ≤ (runOps sF [Op.finish none]).questions_asked ∧
       (runOps sF [Op.finish none]).status = finishedS) :=
  ⟨((c5_counter_monotone_status_forward _).2 [Op.finish none]).1,
    ((c5_counter_monotone_status_forward _).2 [Op.finish none]).2 (by decide)⟩

/-- C4 counterexample: with mode `"Custom|1"` (budget 1) a freshly
started session (counter already 1) that receives an off-topic answer
does not increment the counter, yet the end-of-interview check still
fires and the interview finishes on that off-topic turn. -/
theorem c4_counterexample_offtopic_turn_finishes :
    (let s0 := start_session (pystr "sid") (pystr "Engineer") (pystr "Mid")
        (pystr "General") (pystr "Custom|1") [] (pystr "Tell me about yourself.")
     let r := submit_response s0 (pystr "I like turtles very much.")
        (some (pystr "[OFFTOPIC] That does not address the role.\nCan you relate it to the job?"))
        (pystr "Could you give an example?") 0 (some (pystr "Overall weak."))
     offtopicToken.isPrefixOf (strip (parsedTurn
          (some (pystr "[OFFTOPIC] That does not address the role.\nCan you relate it to the job?"))
          (pystr "Could you give an example?")).1) = true ∧
       r.1.questions_asked = s0.questions_asked ∧
       s0.status = inProgressS ∧
       r.1.status = finishedS) := by decide

/-- C4 (amended): an off-topic answer on an in-progress session never
increments the questions-asked counter; and provided the counter is
still below the mode's budget, the status also stays unchanged, so the
interview does not finish on that turn.  (When the counter already
meets the budget — possible only for budgets at most 1, such as mode
`"Custom|1"` — the end-of-interview check still fires, which is the case
the original claim excludes.) -/
theorem c4_offtopic_no_increment (s : Session) (tr : PyStr) (llm : Option PyStr)
    (fq : PyStr) (sim : ℚ) (fbR : Option PyStr)
    (hfin : ¬s.status = finishedS) (hne : ¬strip tr = [])
    (hoff : offtopicToken.isPrefixOf (strip (parsedTurn llm fq).1) = true) :
    (submit_response s tr llm fq sim fbR).1.questions_asked = s.questions_asked ∧
      ((s.questions_asked : Int) < compute_max_questions s.mode →
        (submit_response s tr llm fq sim fbR).1.status = s.status) := by
  simp only [submit_response]
  rw [if_neg hfin, if_neg hne]
  split
  next hnotoff =>
    rw [hoff] at hnotoff
    simp at hnotoff
  next hnotoff =>
    split
    next hmax => exact ⟨rfl, fun hlt => absurd hmax (not_le.mpr hlt)⟩
    next hmax => exact ⟨rfl, fun _ => rfl⟩

/-- Witness for `c4_offtopic_no_increment`: under mode `"Quick|10"`
(budget 6, counter 1) an off-topic answer leaves counter and status
untouched. -/
theorem c4_offtopic_no_increment_witness :
    (submit_response (start_session (pystr "sid") (pystr "r") (pystr "l") (pystr "f")
        (pystr "Quick|10") [] (pystr "Q?")) (pystr "I like turtles very much.")
        (some (pystr "[OFFTOPIC] Unrelated.\nHow does this relate to the job?"))
        (pystr "fall?") 0 none).1.questions_asked = 1 ∧
      (submit_response (start_session (pystr "sid") (pystr "r") (pystr "l") (pystr "f")
        (pystr "Quick|10") [] (pystr "Q?")) (pystr "I like turtles very much.")
        (some (pystr "[OFFTOPIC] Unrelated.\nHow does this relate to the job?"))
        (pystr "fall?") 0 none).1.status = inProgressS := by
  have h := c4_offtopic_no_increment (start_session (pystr "sid") (pystr "r") (pystr "l")
    (pystr "f") (pystr "Quick|10") [] (pystr "Q?")) (pystr "I like turtles very much.")
    (some (pystr "[OFFTOPIC] Unrelated.\nHow does this relate to the job?"))
    (pystr "fall?") 0 none (by decide) (by decide) (by decide)
  exact ⟨h.1, h.2 (by decide)⟩

/-- C6 counterexample: for a finished session whose stored feedback is
`"Solid overall."`, a second `end_interview` returns a payload with no
feedback field at all, not the stored feedback. -/
theorem c6_counterexample_feedback_not_returned :
    (let s1 := (end_interview (start_session (pystr "sid") (pystr "r") (pystr "l")
        (pystr "f") (pystr "Quick|10") [] (pystr "Q?"))
        (some (pystr "Solid overall."))).1
     s1.status = finishedS ∧ s1.feedback = some (pystr "Solid overall.") ∧
       EndResp.feedbackField (end_interview s1 (some (pystr "Solid overall."))).2 = none ∧
       EndResp.feedbackField (end_interview s1 (some (pystr "Solid overall."))).2 ≠
         s1.feedback) := by decide

/-- C6 (amended): calling `end_interview` on a finished session with
existing non-empty feedback is an idempotent no-op — the session is
returned unchanged and no feedback is regenerated (the reply does not
depend on the completion parameter) — but the reply carries only a
status and a message; it does not include the feedback itself, which
remains retrievable from the stored session. -/
theorem c6_second_end_is_noop_without_feedback_field (s : Session) (fbR : Option PyStr)
    (hfin : s.status = finishedS) (htr : truthyFeedback s.feedback = true) :
    end_interview s fbR =
      (s, EndResp.alreadyDone finishedS (pystr "Feedback already generated.")
        s.session_id) ∧
      EndResp.feedbackField (end_interview s fbR).2 = none := by
  have h : end_interview s fbR =
      (s, EndResp.alreadyDone finishedS (pystr "Feedback already generated.")
        s.session_id) := by
    unfold end_interview
    rw [if_pos ⟨hfin, htr⟩]
  refine ⟨h, ?_⟩
  rw [h]
  rfl

/-- Witness for `c6_second_end_is_noop_without_feedback_field` on a
concrete finished session. -/
theorem c6_second_end_is_noop_witness :
    (let s1 := (end_interview (start_session (pystr "sid") (pystr "r") (pystr "l")
        (pystr "f") (pystr "Quick|10") [] (pystr "Q?"))
        (some (pystr "Solid overall."))).1
     end_interview s1 (some (pystr "Different feedback.")) =
       (s1, EndResp.alreadyDone finishedS (pystr "Feedback already generated.")
         (pystr "sid"))) :=
  (c6_second_end_is_noop_without_feedback_field _ _ (by decide) (by decide)).1

/-- C10: a reachable finished session has stored feedback, and a
`submit_response` against it — whatever the transcription, completion,
fallback, similarity and feedback-generation inputs, so without
consulting any of those collaborators — leaves the session unchanged and
returns the early payload with `feedback_ready = True` and the stored
feedback. -/
theorem c10_submit_on_finished_reports_feedback (s : Session) (h : Reachable s)
    (hfin : s.status = finishedS) :
    (∃ fb, s.feedback = some fb) ∧
      ∀ (tr : PyStr) (llm : Option PyStr) (fq : PyStr) (sim : ℚ) (fbR : Option PyStr),
        submit_response s tr llm fq sim fbR =
          (s, SubmitResp.alreadyFinished true s.feedback) := by
  refine ⟨reachable_finished_feedback s h hfin, fun tr llm fq sim fbR => ?_⟩
  unfold submit_response
  rw [if_pos hfin]

/-- Witness for `c10_submit_on_finished_reports_feedback` on a concrete
reachable finished session. -/
theorem c10_submit_on_finished_reports_feedback_witness :
    (let s1 := (end_interview (start_session (pystr "sid") (pystr "r") (pystr "l")
        (pystr "f") (pystr "Quick|10") [] (pystr "Q?"))
        (some (pystr "Nice work."))).1
     submit_response s1 (pystr "another answer") (some (pystr "Eval.\nNext?"))
        (pystr "fall?") 0 none =
       (s1, SubmitResp.alreadyFinished true (some (pystr "Nice work.")))) :=
  (c10_submit_on_finished_reports_feedback _
    (Reachable.step _ (Op.finish (some (pystr "Nice work.")))
      (Reachable.started (pystr "sid") (pystr "r") (pystr "l") (pystr "f")
        (pystr "Quick|10") [] (pystr "Q?"))) (by decide)).2
    (pystr "another answer") (some (pystr "Eval.\nNext?")) (pystr "fall?") 0 none
